import Mathlib

/-!
Shallow embedding of the Tectonic in-memory vector cache
(Rust sources under `src/rust/src`).

Modelling conventions:
* `f32` values appear at two levels of fidelity, chosen per claim:
  - For the dedup equality check in `CacheShard::insert` (which compares raw
    `f32` arrays with Rust `==`), an `f32` is modelled by its 32-bit pattern
    (a `Nat < 2^32`), and `f32EqBits` implements IEEE-754 equality
    (`NaN` unequal to everything, `+0.0 == -0.0`).
  - For the arithmetic paths (quantization, centroid aggregation) `f32` is
    modelled as `ℚ` (exact arithmetic, computable), and for the distance
    metrics (which use `sqrt`) as `ℝ`.  Note that in `ℚ`/`ℝ` division by
    zero yields `0` where `f32` yields `NaN`; the theorems below never
    depend on the value produced by a division by zero, only on which
    branch the code takes.
* A Rust `panic!`/failed `assert!` is modelled by returning `none`;
  functions that can panic return `Option`.
* The container types are parametric in the component model `α` so that the
  same structure serves both fidelity levels.
-/

/-- Exponent field (8 bits) of an `f32` bit pattern (`n < 2^32`). -/
def f32Exponent (n : Nat) : Nat := (n >>> 23) % 256

/-- Mantissa field (23 bits) of an `f32` bit pattern. -/
def f32Mantissa (n : Nat) : Nat := n % (2 ^ 23)

/-- An `f32` bit pattern encodes a NaN iff the exponent is all ones and the
mantissa is nonzero. -/
def f32IsNaN (n : Nat) : Bool := f32Exponent n == 255 && f32Mantissa n != 0

/-- An `f32` bit pattern encodes `+0.0` or `-0.0` iff all bits except the
sign bit are zero. -/
def f32IsZero (n : Nat) : Bool := n % (2 ^ 31) == 0

/-- Rust `==` on `f32`, on bit patterns: IEEE-754 equality.  Two non-NaN
`f32` values are equal iff their bit patterns coincide or both are zeros
(`+0.0 == -0.0`); a NaN is unequal to everything, itself included.
(Binary32 has no other redundant encodings.) -/
def f32EqBits (a b : Nat) : Bool :=
  !f32IsNaN a && !f32IsNaN b && (a == b || (f32IsZero a && f32IsZero b))

/-- Rust `==` on `[f32; D]`: componentwise `f32` equality. -/
def f32VecEq {D : Nat} (x y : Fin D → Nat) : Bool :=
  (List.finRange D).all fun i => f32EqBits (x i) (y i)

/-- `vector/vector_entry.rs`: `VectorEntry<D>`, an id, a fixed-length vector
and a key hash.  `α` is the model of `f32` (bit pattern `Nat` or `ℚ`). -/
structure VectorEntry (D : Nat) (α : Type) where
  entry_id : Nat
  vector : Fin D → α
  key_hash : Nat

/-- `VectorEntry::new`: stores the id, the vector, and `hash_u64 id` as the
key hash.  `hashU64` models `hashing_util::hash_u64` (Rust's
`DefaultHasher`, a deterministic hash whose concrete values no claim
depends on), passed as a parameter. -/
def VectorEntry.new {D : Nat} {α : Type} (hashU64 : Nat → Nat) (id : Nat)
    (vector : Fin D → α) : VectorEntry D α :=
  { entry_id := id, vector := vector, key_hash := hashU64 id }

/-- `cache/cache_shard.rs`: `CacheShard<D>`. -/
structure CacheShard (D : Nat) (α : Type) where
  shard_id : Nat
  max_entries : Nat
  entry_count : Nat
  entries : List (VectorEntry D α)

/-- `CacheShard::new`: empty shard with the given id and capacity
(`Vec::with_capacity` only reserves storage). -/
def CacheShard.new {D : Nat} {α : Type} (shard_id max_entries : Nat) :
    CacheShard D α :=
  { shard_id := shard_id, max_entries := max_entries, entry_count := 0,
    entries := [] }

/-- `CacheShard::is_full`: `entry_count >= max_entries`. -/
def CacheShard.is_full {D : Nat} {α : Type} (s : CacheShard D α) : Bool :=
  s.max_entries ≤ s.entry_count

/-- `CacheShard::insert`: returns the updated shard and the Rust `bool`
result.  Fails when full; when `overwrite` is false, fails when some stored
entry's raw vector compares `==` to the new one; otherwise appends
`VectorEntry::new(id, *vector)` and increments `entry_count`. -/
def CacheShard.insert {D : Nat} (hashU64 : Nat → Nat) (s : CacheShard D Nat)
    (vector : Fin D → Nat) (overwrite : Bool) (id : Nat) :
    CacheShard D Nat × Bool :=
  if s.is_full then (s, false)
  else if !overwrite && s.entries.any (fun e => f32VecEq e.vector vector) then
    (s, false)
  else
    ({ s with entries := s.entries ++ [VectorEntry.new hashU64 id vector],
              entry_count := s.entry_count + 1 }, true)

/-- `CacheShard::get_shard_centroid`: `None` when `entry_count as f32 == 0.0`;
otherwise the unnormalized componentwise sum of the stored vectors together
with the count (as an `f32`, modelled in `ℚ`). -/
def CacheShard.get_shard_centroid {D : Nat} (s : CacheShard D ℚ) :
    Option ((Fin D → ℚ) × ℚ) :=
  let count : ℚ := s.entry_count
  if count = 0 then none
  else some (fun i => (s.entries.map fun e => e.vector i).sum, count)

/-- Rust `f32::round`: round half away from zero, as an integer. -/
def rustRound (q : ℚ) : ℤ :=
  if 0 ≤ q then ⌊q + 1 / 2⌋ else ⌈q - 1 / 2⌉

/-- Rust `clamp(lo, hi)` on the rounded value followed by `as u8`, on an
integer already guaranteed below by `0`: clamp into `[0, hi]` as a `Nat`. -/
def clampToNat (z : ℤ) (hi : Nat) : Nat := min z.toNat hi

/-- `utility/vector_utils.rs`: `scalar_quantize(vec, levels)`.  Per-vector
min-max normalization: `min`/`max` over the vector's own components
(Rust folds from `INFINITY`/`NEG_INFINITY`, so for a nonempty vector this
is the minimum/maximum; `D = 0` is never used), `scale = (max-min)/(levels-1)`,
each component mapped by `round((x-min)/scale)` and clamped to
`[0, levels-1]`. -/
def scalar_quantize {D : Nat} (vec : Fin D → ℚ) (levels : Nat) : Fin D → Nat :=
  let comps := List.ofFn vec
  let lo := comps.min?.getD 0
  let hi := comps.max?.getD 0
  let scale := (hi - lo) / ((levels : ℚ) - 1)
  fun i => clampToNat (rustRound ((vec i - lo) / scale)) (levels - 1)

/-- `HashMap::get`/`contains_key` on the association-list model of
`HashMap<u64, [u8; D]>` (lookup of the first binding of the key). -/
def mapLookup {V : Type} (m : List (Nat × V)) (k : Nat) : Option V :=
  (m.find? fun kv => kv.1 == k).map Prod.snd

/-- `HashMap::remove`: drop every binding of the key. -/
def mapRemove {V : Type} (m : List (Nat × V)) (k : Nat) : List (Nat × V) :=
  m.filter fun kv => kv.1 != k

/-- `HashMap::insert`: replace any existing binding of the key. -/
def mapInsert {V : Type} (m : List (Nat × V)) (k : Nat) (v : V) :
    List (Nat × V) :=
  (k, v) :: mapRemove m k

/-- `cache/cache_partition.rs`: `CachePartition<D>`.  The `id_counter`
(`Arc<AtomicUsize>`, unused by every claim) is omitted.  `id_map` models the
`HashMap<u64, [u8; D]>` as an association list; `entries` holds the raw
vectors the source pushes at partition level. -/
structure CachePartition (D : Nat) where
  partition_id : Nat
  max_entries : Nat
  entry_count : Nat
  centroid : Option (Fin D → ℚ)
  id_map : List (Nat × (Fin D → Nat))
  entries : List (Fin D → ℚ)
  shards : List (CacheShard D ℚ)

/-- `CachePartition::new`: empty partition; `shards` starts empty
(`Vec::with_capacity(shard_count)` only reserves). -/
def CachePartition.new {D : Nat} (partition_id max_entries shard_count : Nat) :
    CachePartition D :=
  let _ := shard_count
  { partition_id := partition_id, max_entries := max_entries,
    entry_count := 0, centroid := none, id_map := [], entries := [],
    shards := [] }

/-- `CachePartition::is_full`: `entry_count >= max_entries`. -/
def CachePartition.is_full {D : Nat} (p : CachePartition D) : Bool :=
  p.max_entries ≤ p.entry_count

/-- The loop `for i in 0..remainder { sizes[i] += 1 }`: add one to each of
the first `r` elements of the list. -/
def bumpFirst : List Nat → Nat → List Nat
  | l, 0 => l
  | [], _ + 1 => []
  | x :: xs, r + 1 => (x + 1) :: bumpFirst xs r

/-- `CachePartition::calculate_shard_size`: asserts `shard_count > 0`
(panic modelled as `none`), then `vec![max_entries / shard_count; shard_count]`
with the remainder distributed to the first shards. -/
def calculate_shard_size (max_entries shard_count : Nat) : Option (List Nat) :=
  if shard_count = 0 then none
  else some (bumpFirst (List.replicate shard_count (max_entries / shard_count))
    (max_entries % shard_count))

/-- `CachePartition::initiate_shards`: pushes `CacheShard::new(i, size)` for
each calculated size (panics — `none` — when `shard_count = 0`). -/
def CachePartition.initiate_shards {D : Nat} (p : CachePartition D)
    (total_size shard_count : Nat) : Option (CachePartition D) :=
  (calculate_shard_size total_size shard_count).map fun sizes =>
    { p with shards := p.shards ++
        (sizes.enum.map fun is => CacheShard.new is.1 is.2) }

/-- `CachePartition::insert`.  The leading `assert!(self.is_full())` panics
(`none`) whenever the partition is NOT full.  `fp` models the fingerprint
hash `generate_vector_id`, which is imported from `hashing_util` but absent
from the sources; per the spec it is a deterministic hash of the quantized
representation, so it is passed in as an arbitrary function.  `Err(false)`
is modelled as `Except.error false`.  The `self.entry_count -= 1` on a
`usize` panics on underflow (debug semantics), modelled as `none`. -/
def CachePartition.insert {D : Nat} (p : CachePartition D)
    (fp : (Fin D → Nat) → Nat) (entry : Fin D → ℚ) (overwrite : Bool) :
    Option (CachePartition D × Except Bool Bool) :=
  if !p.is_full then none
  else
    let quantized_vector := scalar_quantize entry 256
    let map_id := fp quantized_vector
    let finish : CachePartition D → Option (CachePartition D × Except Bool Bool) :=
      fun q => some
        ({ q with id_map := mapInsert q.id_map map_id quantized_vector,
                  entries := q.entries ++ [entry],
                  entry_count := q.entry_count + 1 }, Except.ok true)
    match mapLookup p.id_map map_id, overwrite with
    | some existing, false =>
        if existing = quantized_vector then some (p, Except.error false)
        else if p.entry_count = 0 then none
        else finish { p with id_map := mapRemove p.id_map map_id,
                             entry_count := p.entry_count - 1 }
    | _, _ => finish p

/-- `CachePartition::update_centroid`.  The leading
`assert!(self.shards.is_empty())` panics (`none`) whenever the partition
DOES have shards; otherwise it folds the shard centroids (sum of sums,
total count — `as usize` modelled by `Int.toNat ∘ Int.floor`), divides the
summed vector componentwise by the total count, and stores `Some(mean)`. -/
def CachePartition.update_centroid {D : Nat} (p : CachePartition D) :
    Option (CachePartition D) :=
  if !p.shards.isEmpty then none
  else
    let acc := p.shards.foldl
      (fun (acc : Nat × (Fin D → ℚ)) shard =>
        match shard.get_shard_centroid with
        | some c => (acc.1 + (⌊c.2⌋).toNat, fun i => acc.2 i + c.1 i)
        | none => acc)
      (0, fun _ => 0)
    some { p with centroid := some fun i => acc.2 i / (acc.1 : ℚ) }

/-- `search/distance_metric.rs`: the resolved metric strategy (the trait
object held by the cache is one of the three unit strategy structs). -/
inductive Metric
  | cosine
  | euclidean
  | dotProduct

/-- Rust `str::to_lowercase`, modelled characterwise (the metric names it
is applied to are ASCII, where Unicode and ASCII lowercasing agree). -/
def strToLower (s : String) : String := String.mk (s.data.map Char.toLower)

/-- `VectorCache::initialise_search_metric`: lowercases the configured name;
an unrecognized name panics (`none`). -/
def initialise_search_metric (search_metric : String) : Option Metric :=
  match strToLower search_metric with
  | "cosine" => some Metric.cosine
  | "euclidean" => some Metric.euclidean
  | "dot-product" => some Metric.dotProduct
  | _ => none

/-- `VectorCache::calculate_partition_size`: asserts `partition_count > 0`
(panic modelled as `none`), then `vec![max_entries / partition_count;
partition_count]` with the remainder distributed to the first partitions. -/
def calculate_partition_size (max_entries partition_count : Nat) :
    Option (List Nat) :=
  if partition_count = 0 then none
  else some (bumpFirst
    (List.replicate partition_count (max_entries / partition_count))
    (max_entries % partition_count))

/-- `VectorCache::initialize_partitions`: for each calculated size,
`CachePartition::new(id, size, shard_count)` followed by
`initiate_shards(size, shard_count)`. -/
def initialize_partitions (D : Nat)
    (max_entries partition_count shard_count : Nat) :
    Option (List (CachePartition D)) :=
  (calculate_partition_size max_entries partition_count).bind fun sizes =>
    sizes.enum.mapM fun is =>
      (CachePartition.new (D := D) is.1 is.2 shard_count).initiate_shards
        is.2 shard_count

/-- `cache/vector_cache.rs`: `VectorCache<D>`.  The `created_at : Instant`
field (a wall-clock timestamp, unused by every claim) is omitted. -/
structure VectorCache (D : Nat) where
  cache_id : String
  max_entries : Nat
  partition_count : Nat
  shard_count : Nat
  centroid_update : Nat
  quantization_enabled : Bool
  search_metric : Metric
  search_candidates : Nat
  eviction_strategy : String
  eager_eviction : Bool
  approximate_eviction : Bool
  thread_safe : Bool
  metrics_enabled : Bool
  debug_mode : Bool
  partitions : List (CachePartition D)

/-- `VectorCache::new`: resolves the metric (panic on an unknown name) and
builds the partitions (panic when a count is zero); both panics are
modelled as `none`. -/
def VectorCache.new (D : Nat) (cache_id : String)
    (max_entries partition_count shard_count centroid_update : Nat)
    (quantization_enabled : Bool) (search_metric : String)
    (search_candidates : Nat) (eviction_strategy : String)
    (eager_eviction approximate_eviction thread_safe metrics_enabled
      debug_mode : Bool) : Option (VectorCache D) :=
  match initialise_search_metric search_metric,
        initialize_partitions D max_entries partition_count shard_count with
  | some metric, some parts => some
      { cache_id := cache_id, max_entries := max_entries,
        partition_count := partition_count, shard_count := shard_count,
        centroid_update := centroid_update,
        quantization_enabled := quantization_enabled,
        search_metric := metric, search_candidates := search_candidates,
        eviction_strategy := eviction_strategy,
        eager_eviction := eager_eviction,
        approximate_eviction := approximate_eviction,
        thread_safe := thread_safe, metrics_enabled := metrics_enabled,
        debug_mode := debug_mode, partitions := parts }
  | _, _ => none

/-- `VectorCache::size`: sum of the partitions' `entry_count`. -/
def VectorCache.size {D : Nat} (c : VectorCache D) : Nat :=
  (c.partitions.map fun p => p.entry_count).sum

/-- `VectorCache::partition_sizes`. -/
def VectorCache.partition_sizes {D : Nat} (c : VectorCache D) : List Nat :=
  c.partitions.map fun p => p.entry_count

/-- `VectorCache::is_full`: `size() >= max_entries`. -/
def VectorCache.is_full {D : Nat} (c : VectorCache D) : Bool :=
  c.max_entries ≤ c.size

/-- `VectorCache::factor`: `size / max_entries` (as `f32`, modelled in `ℚ`). -/
def VectorCache.factor {D : Nat} (c : VectorCache D) : ℚ :=
  (c.size : ℚ) / (c.max_entries : ℚ)

/-- `VectorCache::insert`: `assert!(!self.is_full())` (panic — `none` — when
full), then the placeholder body returns `true` without touching any
state. -/
def VectorCache.insert {D : Nat} (c : VectorCache D) (vector : Fin D → ℚ)
    (overwrite : Bool) : Option (VectorCache D × Bool) :=
  let _ := vector
  let _ := overwrite
  if c.is_full then none else some (c, true)

/-- `VectorCache::rebuild`: `update_centroid` on every partition, in order;
a panic in any partition propagates (`none`). -/
def VectorCache.rebuild {D : Nat} (c : VectorCache D) :
    Option (VectorCache D) :=
  (c.partitions.mapM CachePartition.update_centroid).map fun ps =>
    { c with partitions := ps }

/-- `search/euclidean_strategy.rs`: `EuclideanProduct::distance`, the sum of
squared componentwise differences (`f32` modelled as `ℝ`). -/
noncomputable def EuclideanProduct.distance {D : Nat} (x y : Fin D → ℝ) : ℝ :=
  ∑ i, (x i - y i) * (x i - y i)

/-- `search/dot_strategy.rs`: `DotProduct::distance`, the negated dot
product. -/
noncomputable def DotProduct.distance {D : Nat} (x y : Fin D → ℝ) : ℝ :=
  -(∑ i, x i * y i)

/-- `search/cosine_strategy.rs`: `CosineProduct::distance`.  The loop
accumulates the dot product and both squared norms; if either squared norm
is zero the function returns `1.0` before any division; otherwise
`1 - dot / (sqrt(norm_x) * sqrt(norm_y))`. -/
noncomputable def CosineProduct.distance {D : Nat} (x y : Fin D → ℝ) : ℝ :=
  let dot_product := ∑ i, x i * y i
  let norm_x := ∑ i, x i * x i
  let norm_y := ∑ i, y i * y i
  if norm_x = 0 ∨ norm_y = 0 then 1
  else 1 - dot_product / (Real.sqrt norm_x * Real.sqrt norm_y)

/-- The shard invariant of the spec: `count == len(entries) <= capacity`. -/
def shardInv {D : Nat} {α : Type} (s : CacheShard D α) : Prop :=
  s.entry_count = s.entries.length ∧ s.entry_count ≤ s.max_entries

/-- C1: `CachePartition::update_centroid` opens with
`assert!(self.shards.is_empty())`, so it panics on every partition whose
shard collection is non-empty (here: one shard holding the single vector
`[2.0]`, where the claim demands centroid `[2.0]`); on a partition with no
shards it succeeds but stores `Some` (the `0/0` vector) although the
partition holds zero entries, so the centroid is not `None` when the count
is zero; consequently `rebuild` on a freshly constructed cache (all of
whose partitions have shards) panics instead of aggregating. -/
theorem C1_update_centroid_panics_on_sharded_partition :
    CachePartition.update_centroid (D := 1)
      { partition_id := 0, max_entries := 4, entry_count := 1,
        centroid := none, id_map := [], entries := [],
        shards := [{ shard_id := 0, max_entries := 4, entry_count := 1,
                     entries := [VectorEntry.new (fun n => n) 0
                       (fun _ => (2 : ℚ))] }] } = none ∧
    (CachePartition.update_centroid
        (CachePartition.new (D := 1) 0 4 2)).map
      (fun p => (p.entry_count, p.centroid.isSome)) = some (0, true) ∧
    (VectorCache.new 1 "cache" 4 2 1 100 false "euclidean" 100 "LRU"
        false false true true false).isSome = true ∧
    ((VectorCache.new 1 "cache" 4 2 1 100 false "euclidean" 100 "LRU"
        false false true true false).bind VectorCache.rebuild) = none :=
  ⟨rfl, rfl, rfl, rfl⟩

/-- C2: `CachePartition::insert` opens with `assert!(self.is_full())`
(message: "Cannot insert into a full partition"), so on a partition that IS
at capacity the assert passes and the body inserts anyway: the insert is
accepted (`Ok(true)`) and `entry_count` grows past `max_entries`, instead
of being rejected with `CapacityExceeded` without mutation.  Stated for
every fingerprint hash `fp`. -/
theorem C2_full_partition_insert_not_rejected : ∀ fp : (Fin 1 → Nat) → Nat,
    (CachePartition.new (D := 1) 0 0 1).is_full = true ∧
    ((CachePartition.new (D := 1) 0 0 1).insert fp
        (fun _ => 1) false).map (fun r => (r.2, r.1.entry_count)) =
      some (Except.ok true, 1) :=
  fun _ => ⟨rfl, rfl⟩

/-- C4: because of the same inverted `assert!(self.is_full())`, the FIRST
insert of a vector into a non-full (here: empty, capacity 2) partition
panics instead of succeeding, for `overwrite = false`; the dedup behaviour
the claim describes is therefore unreachable.  Stated for every fingerprint
hash `fp`. -/
theorem C4_first_insert_into_nonfull_partition_panics :
    ∀ fp : (Fin 1 → Nat) → Nat,
    (CachePartition.new (D := 1) 0 2 1).is_full = false ∧
    (CachePartition.new (D := 1) 0 2 1).insert fp (fun _ => 1) false =
      none :=
  fun _ => ⟨rfl, rfl⟩

/-- C6: an insert that `CachePartition::insert` accepts (`Ok(true)`; here a
capacity-0 partition with one initialized shard, so the inverted capacity
assert passes) pushes the raw vector into the partition-level `entries`
vector and leaves every shard untouched (shard entry counts and entry
lists stay empty): no shard is selected and `Shard::insert` is never
called.  Stated for every fingerprint hash `fp`. -/
theorem C6_accepted_insert_never_delegates_to_shards :
    ∀ fp : (Fin 1 → Nat) → Nat,
    (((CachePartition.new (D := 1) 0 0 1).initiate_shards 0 1).bind
        fun p => p.insert fp (fun _ => 1) false).map
      (fun r => (r.2, r.1.shards.map fun s => (s.entry_count,
        s.entries.length), r.1.entries.length)) =
      some (Except.ok true, [(0, 0)], 1) :=
  fun _ => rfl

/-- C3: `VectorCache::insert` is a placeholder: on a non-full cache it
returns `true` and leaves the cache completely unchanged (on a full cache
it panics via `assert!(!self.is_full())`).  So for the claimed
configuration (`max_entries = 4`, `partition_count = 2`, `shard_count = 1`,
`metric = euclidean`, `eager_eviction = false`), every insert — the first
four included — stores nothing: after them `size()` is still `0` (not `4`)
and `is_full()` is `false` (not `true`), and a 5th insert again returns
success rather than `CapacityExceeded`. -/
theorem C3_cache_insert_is_a_placeholder :
    ∃ c : VectorCache 1,
      VectorCache.new 1 "cache" 4 2 1 100 false "euclidean" 100 "LRU"
        false false true true false = some c ∧
      (∀ (v : Fin 1 → ℚ) (ow : Bool), c.insert v ow = some (c, true)) ∧
      c.size = 0 ∧ c.is_full = false := by
  exact ⟨(VectorCache.new 1 "cache" 4 2 1 100 false "euclidean" 100 "LRU"
    false false true true false).get rfl, rfl, fun v ow => rfl, rfl, rfl⟩

/-- Adding one to the first `r ≤ n` elements of `replicate n b` gives
`r` copies of `b + 1` followed by `n - r` copies of `b`. -/
theorem bumpFirst_replicate (b : Nat) : ∀ (n r : Nat), r ≤ n →
    bumpFirst (List.replicate n b) r =
      List.replicate r (b + 1) ++ List.replicate (n - r) b
  | _, 0, _ => by simp [bumpFirst]
  | 0, r + 1, h => absurd h (by omega)
  | n + 1, r + 1, h => by
      rw [List.replicate_succ]
      show (b + 1) :: bumpFirst (List.replicate n b) r = _
      rw [bumpFirst_replicate b n r (Nat.lt_succ_iff.mp h)]
      simp [List.replicate_succ]

/-- C5: for every `max_entries` and positive `partition_count`, the
capacity split is `m % pc` partitions of size `m / pc + 1` followed by
`pc - m % pc` partitions of size `m / pc`: the sizes sum to `max_entries`,
there are `partition_count` of them, they are non-increasing (larger
capacities first, remainder on the first partitions) and any two differ by
at most one; `CachePartition::calculate_shard_size` is the very same rule,
applied recursively to the shard split; and `max_entries = 10` with
`partition_count = 3` yields `[4, 3, 3]`. -/
theorem C5_capacity_split (m pc : Nat) (h : 0 < pc) :
    calculate_shard_size m pc = calculate_partition_size m pc ∧
    (∃ sizes, calculate_partition_size m pc = some sizes ∧
      sizes = List.replicate (m % pc) (m / pc + 1) ++
        List.replicate (pc - m % pc) (m / pc) ∧
      sizes.length = pc ∧ sizes.sum = m ∧
      List.Sorted (fun a b => b ≤ a) sizes ∧
      ∀ a ∈ sizes, ∀ b ∈ sizes, a ≤ b + 1) ∧
    calculate_partition_size 10 3 = some [4, 3, 3] := by
  have hpc : pc ≠ 0 := Nat.pos_iff_ne_zero.mp h
  have hmod : m % pc ≤ pc := le_of_lt (Nat.mod_lt _ h)
  have hdm : pc * (m / pc) + m % pc = m := Nat.div_add_mod m pc
  refine ⟨rfl, ⟨_, ?_, rfl, ?_, ?_, ?_, ?_⟩, by decide⟩
  · rw [calculate_partition_size, if_neg hpc,
      bumpFirst_replicate _ pc (m % pc) hmod]
  · simp only [List.length_append, List.length_replicate]
    omega
  · rw [List.sum_append, List.sum_replicate, List.sum_replicate,
      smul_eq_mul, smul_eq_mul]
    have h2 : (pc - m % pc) * (m / pc) =
        pc * (m / pc) - m % pc * (m / pc) := Nat.sub_mul _ _ _
    have h3 : m % pc * (m / pc) ≤ pc * (m / pc) :=
      Nat.mul_le_mul_right _ hmod
    have h4 : m % pc * (m / pc + 1) =
        m % pc * (m / pc) + m % pc := by ring
    omega
  · rw [List.Sorted, List.pairwise_append]
    refine ⟨List.pairwise_replicate.mpr (Or.inr le_rfl),
      List.pairwise_replicate.mpr (Or.inr le_rfl), ?_⟩
    intro a ha c hc
    rw [List.eq_of_mem_replicate ha, List.eq_of_mem_replicate hc]
    omega
  · intro a ha c hc
    rcases List.mem_append.mp ha with ha' | ha' <;>
      rcases List.mem_append.mp hc with hc' | hc' <;>
        rw [List.eq_of_mem_replicate ha', List.eq_of_mem_replicate hc'] <;>
          omega

/-- C7 counterexample: a non-full shard holds the single vector `[+0.0]`
(bit pattern `0x00000000`); inserting `[-0.0]` (bit pattern `0x80000000`)
with `overwrite = false` finds no bit-for-bit equal entry — the patterns
differ — yet `CacheShard::insert` returns `false` and inserts nothing,
because Rust's `==` on `f32` deems `+0.0` and `-0.0` equal.  Under the
claim as stated the insert would have to append and return `true`. -/
theorem C7_bitforbit_counterexample :
    (⟨0, 2, 1, [⟨5, fun _ => 0, 0⟩]⟩ : CacheShard 1 Nat).is_full = false ∧
    (∀ e ∈ (⟨0, 2, 1, [⟨5, fun _ => 0, 0⟩]⟩ : CacheShard 1 Nat).entries,
      e.vector ≠ fun _ => 2 ^ 31) ∧
    (CacheShard.insert (fun n => n)
      (⟨0, 2, 1, [⟨5, fun _ => 0, 0⟩]⟩ : CacheShard 1 Nat)
      (fun _ => 2 ^ 31) false 9) =
      ((⟨0, 2, 1, [⟨5, fun _ => 0, 0⟩]⟩ : CacheShard 1 Nat), false) := by
  refine ⟨rfl, ?_, rfl⟩
  intro e he hv
  rw [List.mem_singleton] at he
  subst he
  exact absurd (congrFun hv 0) (by decide)

/-- C7 (amended): `CacheShard::insert` returns `false` and leaves the shard
unchanged when the shard is at capacity; when `overwrite` is false it
returns `false` and leaves the shard unchanged if some existing entry's raw
vector compares equal to the new one under Rust's `==` on `f32` (IEEE-754
equality: componentwise, with `+0.0 == -0.0` and NaN unequal to
everything — not bit-for-bit equality); in every other case it appends a
new `VectorEntry` with the given id and increments the count by one,
returning `true`. -/
theorem C7_shard_insert_amended {D : Nat} (hashU64 : Nat → Nat)
    (s : CacheShard D Nat) (v : Fin D → Nat) (ow : Bool) (id : Nat) :
    (s.is_full = true → CacheShard.insert hashU64 s v ow id = (s, false)) ∧
    (s.is_full = false → ow = false →
      s.entries.any (fun e => f32VecEq e.vector v) = true →
      CacheShard.insert hashU64 s v ow id = (s, false)) ∧
    (s.is_full = false →
      (ow = true ∨ s.entries.any (fun e => f32VecEq e.vector v) = false) →
      CacheShard.insert hashU64 s v ow id =
        ({ s with entries := s.entries ++ [VectorEntry.new hashU64 id v],
                  entry_count := s.entry_count + 1 }, true)) := by
  refine ⟨fun h => by simp [CacheShard.insert, h],
    fun h1 h2 h3 => by simp [CacheShard.insert, h1, h2, h3], fun h1 h2 => ?_⟩
  rcases h2 with h2 | h2 <;> simp [CacheShard.insert, h1, h2]

/-- Witness for C7 (amended): inserting into an empty shard of capacity 1
appends the entry and returns `true`. -/
theorem C7_shard_insert_amended_witness :
    (CacheShard.new (D := 1) (α := Nat) 0 1).is_full = false ∧
    ((CacheShard.new (D := 1) (α := Nat) 0 1).entries.any
      (fun e => f32VecEq e.vector fun _ => 0) = false) ∧
    CacheShard.insert (fun n => n) (CacheShard.new 0 1) (fun _ => 0) false 7 =
      ({ CacheShard.new (D := 1) (α := Nat) 0 1 with
          entries := (CacheShard.new (D := 1) (α := Nat) 0 1).entries ++
            [VectorEntry.new (fun n => n) 7 fun _ => 0],
          entry_count := (CacheShard.new (D := 1) (α := Nat) 0 1).entry_count
            + 1 }, true) :=
  ⟨rfl, rfl, (C7_shard_insert_amended (fun n => n) (CacheShard.new 0 1)
    (fun _ => 0) false 7).2.2 rfl (Or.inr rfl)⟩

/-- A single `CacheShard::insert` preserves the shard invariant
`entry_count == entries.length <= max_entries`. -/
theorem shardInv_insert {D : Nat} (hashU64 : Nat → Nat)
    (s : CacheShard D Nat) (v : Fin D → Nat) (ow : Bool) (id : Nat)
    (hs : shardInv s) : shardInv (CacheShard.insert hashU64 s v ow id).1 := by
  by_cases hf : s.is_full
  · simp [CacheShard.insert, hf, hs]
  · by_cases hd : (!ow && s.entries.any fun e => f32VecEq e.vector v)
    · simp [CacheShard.insert, hf, hd, hs]
    · obtain ⟨h1, h2⟩ := hs
      have hlt : ¬ s.max_entries ≤ s.entry_count := by
        simpa [CacheShard.is_full] using hf
      simp only [CacheShard.insert, hf, hd, Bool.false_eq_true, if_false,
        if_neg hf]
      constructor
      · simp [h1]
      · simp
        omega

/-- C9: the shard invariant `entry_count == len(entries) <= max_entries`
holds after `CacheShard::new` and is preserved by every `CacheShard::insert`;
consequently it holds after every sequence of inserts applied to a fresh
shard. -/
theorem C9_shard_invariant (D : Nat) (hashU64 : Nat → Nat) :
    (∀ (s : CacheShard D Nat) (v : Fin D → Nat) (ow : Bool) (id : Nat),
      shardInv s → shardInv (CacheShard.insert hashU64 s v ow id).1) ∧
    ∀ (sid cap : Nat) (ops : List ((Fin D → Nat) × Bool × Nat)),
      shardInv (ops.foldl
        (fun s op => (CacheShard.insert hashU64 s op.1 op.2.1 op.2.2).1)
        (CacheShard.new sid cap)) := by
  refine ⟨fun s v ow id => shardInv_insert hashU64 s v ow id, ?_⟩
  intro sid cap ops
  have main : ∀ (l : List ((Fin D → Nat) × Bool × Nat))
      (s : CacheShard D Nat), shardInv s →
      shardInv (l.foldl
        (fun s op => (CacheShard.insert hashU64 s op.1 op.2.1 op.2.2).1) s) := by
    intro l
    induction l with
    | nil => exact fun s hs => hs
    | cons op rest ih =>
        exact fun s hs => ih _ (shardInv_insert hashU64 s op.1 op.2.1 op.2.2 hs)
  exact main ops _ ⟨rfl, Nat.zero_le _⟩

/-- Witness for C9: the invariant holds for a fresh shard of capacity 2 and
is preserved by one concrete insert. -/
theorem C9_shard_invariant_witness :
    shardInv (CacheShard.new (D := 1) (α := Nat) 0 2) ∧
    shardInv (CacheShard.insert (D := 1) (fun n => n) (CacheShard.new 0 2)
      (fun _ => 0) false 1).1 :=
  ⟨⟨rfl, Nat.zero_le _⟩,
    (C9_shard_invariant 1 (fun n => n)).1 _ _ _ _ ⟨rfl, Nat.zero_le _⟩⟩

/-- C8: for every pair of vectors, if either squared norm is zero the
cosine distance is exactly `1` (the guard branch, taken before any
division); otherwise it is `1 - dot(x,y) / (sqrt(normSq x) * sqrt(normSq y))`;
in particular the zero vector against any vector yields `1`. -/
theorem C8_cosine_zero_norm_guard (D : Nat) (x y : Fin D → ℝ) :
    ((∑ i, x i * x i) = 0 ∨ (∑ i, y i * y i) = 0 →
      CosineProduct.distance x y = 1) ∧
    ((∑ i, x i * x i) ≠ 0 → (∑ i, y i * y i) ≠ 0 →
      CosineProduct.distance x y =
        1 - (∑ i, x i * y i) /
          (Real.sqrt (∑ i, x i * x i) * Real.sqrt (∑ i, y i * y i))) ∧
    CosineProduct.distance (fun _ => (0 : ℝ)) y = 1 := by
  refine ⟨fun h => ?_, fun hx hy => ?_, ?_⟩
  · simp only [CosineProduct.distance]
    exact if_pos h
  · simp only [CosineProduct.distance]
    exact if_neg (by tauto)
  · simp [CosineProduct.distance]

/-- Witness for C8: the zero vector against `[5.0]` has zero squared norm
and cosine distance exactly `1`. -/
theorem C8_cosine_zero_norm_guard_witness :
    ((∑ i : Fin 1, (fun _ => (0 : ℝ)) i * (fun _ => (0 : ℝ)) i) = 0 ∨
      (∑ i : Fin 1, (fun _ => (5 : ℝ)) i * (fun _ => (5 : ℝ)) i) = 0) ∧
    CosineProduct.distance (D := 1) (fun _ => (0 : ℝ)) (fun _ => (5 : ℝ)) = 1 := by
  have h : (∑ i : Fin 1, (fun _ => (0 : ℝ)) i * (fun _ => (0 : ℝ)) i) = 0 :=
    by simp
  exact ⟨Or.inl h,
    (C8_cosine_zero_norm_guard 1 (fun _ => 0) (fun _ => 5)).1 (Or.inl h)⟩

/-- C10: the euclidean (squared) distance and the negated-dot-product
distance are exactly symmetric in their two arguments. -/
theorem C10_euclidean_dot_symmetric (D : Nat) (x y : Fin D → ℝ) :
    EuclideanProduct.distance x y = EuclideanProduct.distance y x ∧
    DotProduct.distance x y = DotProduct.distance y x := by
  constructor
  · exact Finset.sum_congr rfl fun i _ => by ring
  · show -(∑ i, x i * y i) = -(∑ i, y i * x i)
    congr 1
    exact Finset.sum_congr rfl fun i _ => by ring

/-- Witness for C5 at `max_entries = 10`, `partition_count = 3`. -/
theorem C5_capacity_split_witness :
    (0 : Nat) < 3 ∧
    (calculate_shard_size 10 3 = calculate_partition_size 10 3 ∧
      (∃ sizes, calculate_partition_size 10 3 = some sizes ∧
        sizes = List.replicate (10 % 3) (10 / 3 + 1) ++
          List.replicate (3 - 10 % 3) (10 / 3) ∧
        sizes.length = 3 ∧ sizes.sum = 10 ∧
        List.Sorted (fun a b => b ≤ a) sizes ∧
        ∀ a ∈ sizes, ∀ b ∈ sizes, a ≤ b + 1) ∧
      calculate_partition_size 10 3 = some [4, 3, 3]) :=
  ⟨by decide, C5_capacity_split 10 3 (by decide)⟩
